import Mathlib

/-!
Verification of the route-api planner core against its specification:
the polyline codec, the great-circle distance, the hybrid fuel-stop
planner, location resolution and the batch-geocoding schedule, all
modelled shallowly from the sources under `src/planner`.
-/

namespace RouteApi

/-!
### Polyline decoding (`src/planner/utils.py`, `decode_polyline`)

Strings are modelled as lists of character codes (`ord`).  The Python
function indexes into the string and raises `IndexError` when a 5-bit
chunk runs past the end of the string, so the embedding returns an
`Option`; it is `none` exactly on the inputs where the source raises.
-/

/-- One inner `while` loop of `decode_polyline`: starting from
accumulators `shift` and `result`, read characters
(`b = ord(c) - 63`, `result |= (b & 0x1f) << shift`, `shift += 5`)
until `b < 0x20`.  Python's `b & 0x1f` on a possibly negative `b` is
arithmetic mod 32.  Returns the final `result` and the characters left. -/
def parseChunk : List ℕ → ℕ → ℕ → Option (ℕ × List ℕ)
  | [], _, _ => none
  | c :: rest, shift, result =>
    let b : ℤ := (c : ℤ) - 63
    let result' : ℕ := result ||| (((b % 32).toNat) <<< shift)
    if b < 32 then some (result', rest) else parseChunk rest (shift + 5) result'

theorem parseChunk_length_lt :
    ∀ (cs : List ℕ) (shift result v : ℕ) (rest : List ℕ),
      parseChunk cs shift result = some (v, rest) → rest.length < cs.length := by
  intro cs
  induction cs with
  | nil => intro _ _ _ _ h; simp [parseChunk] at h
  | cons c cs ih =>
    intro shift result v rest h
    simp only [parseChunk] at h
    split at h
    · cases h; simp
    · exact Nat.lt_trans (ih _ _ _ _ h) (by simp)

/-- The sign decoding step of `decode_polyline`:
`result = ~(result >> 1) if result & 1 else result >> 1`
(Python `~x` is `-x - 1`). -/
def unzig (r : ℕ) : ℤ :=
  if r % 2 = 1 then -((r / 2 : ℕ) : ℤ) - 1 else ((r / 2 : ℕ) : ℤ)

/-- The outer `while index < len(polyline)` loop of `decode_polyline`,
carrying the running `lat` and `lng` accumulators.  Each iteration reads
one chunk for the latitude delta and one for the longitude delta and
appends the pair `(lng, lat)` — longitude first, exactly as the source's
`coordinates.append((lng, lat))` does, and without any `1e-5` scaling. -/
def decodeLoop : List ℕ → ℤ → ℤ → Option (List (ℤ × ℤ))
  | [], _, _ => some []
  | c :: rest, lat, lng =>
    match h1 : parseChunk (c :: rest) 0 0 with
    | none => none
    | some (r1, cs1) =>
      match h2 : parseChunk cs1 0 0 with
      | none => none
      | some (r2, cs2) =>
        (decodeLoop cs2 (lat + unzig r1) (lng + unzig r2)).map
          (fun l => (lng + unzig r2, lat + unzig r1) :: l)
termination_by cs _ _ => cs.length
decreasing_by
  exact Nat.lt_trans (parseChunk_length_lt _ _ _ _ _ h2)
    (parseChunk_length_lt _ _ _ _ _ h1)

/-- `decode_polyline` from `src/planner/utils.py`.  The source returns the
empty list on the empty string and otherwise loops over the characters. -/
def decode_polyline (cs : List ℕ) : Option (List (ℤ × ℤ)) :=
  decodeLoop cs 0 0

/-!
### The spec's reading of the decoder, and the encoder

The spec (§4.1) describes the codec as scaling each accumulated value by
`1e-5` and producing `(latitude, longitude)` points.  `decodeLoopClaim`
renders that wording for comparison with the source decoder.
`encode_polyline` appears in the spec but has no counterpart under
`src/`, so it is modelled from the spec's words.
-/

/-- Modelled from the spec: the claimed behaviour of `decodePolyline`
(§4.1) — identical chunk and sign decoding, but each accumulated value
scaled by `1e-5` and each point emitted in `(latitude, longitude)`
order.  Used to compare the claim against the source decoder. -/
def decodeLoopClaim : List ℕ → ℤ → ℤ → Option (List (ℚ × ℚ))
  | [], _, _ => some []
  | c :: rest, lat, lng =>
    match h1 : parseChunk (c :: rest) 0 0 with
    | none => none
    | some (r1, cs1) =>
      match h2 : parseChunk cs1 0 0 with
      | none => none
      | some (r2, cs2) =>
        (decodeLoopClaim cs2 (lat + unzig r1) (lng + unzig r2)).map
          (fun l => (((lat + unzig r1 : ℤ) : ℚ) / 100000,
                     ((lng + unzig r2 : ℤ) : ℚ) / 100000) :: l)
termination_by cs _ _ => cs.length
decreasing_by
  exact Nat.lt_trans (parseChunk_length_lt _ _ _ _ _ h2)
    (parseChunk_length_lt _ _ _ _ _ h1)

/-- Modelled from the spec: the claimed `decodePolyline` (§4.1). -/
def decodePolylineClaim (cs : List ℕ) : Option (List (ℚ × ℚ)) :=
  decodeLoopClaim cs 0 0

/-- 5-bit chunking of a non-negative value for the standard polyline
encoding: emit low 5-bit groups with the `0x20` continuation bit
(`+ 63` offset) until the remainder fits in one chunk. -/
def encodeChunks (v : ℕ) : List ℕ :=
  if _h : v < 32 then [v + 63] else (v % 32 + 95) :: encodeChunks (v / 32)
termination_by v
decreasing_by
  exact Nat.div_lt_self (by omega) (by norm_num)

/-- The signed-to-unsigned step of the standard polyline encoding:
`value = ~(value << 1) if value < 0 else value << 1`. -/
def zig (v : ℤ) : ℕ :=
  if v < 0 then (2 * (-v) - 1).toNat else (2 * v).toNat

/-- Encode one signed delta. -/
def encodeSigned (v : ℤ) : List ℕ :=
  encodeChunks (zig v)

/-- Modelled from the spec: the body of `encodePolyline`, carrying the
previous point's scaled integer coordinates; each point contributes its
latitude delta then its longitude delta. -/
def encodeLoop : ℤ → ℤ → List (ℚ × ℚ) → List ℕ
  | _, _, [] => []
  | plat, plng, (la, lo) :: rest =>
    let ila := round (la * 100000)
    let ilo := round (lo * 100000)
    encodeSigned (ila - plat) ++ encodeSigned (ilo - plng) ++ encodeLoop ila ilo rest

/-- Modelled from the spec: `encodePolyline` (§4.1, §6) — the inverse
codec is named by the spec but absent from `src/`, so it is modelled as
the standard Google polyline encoder the spec describes (scale by `1e5`,
round, delta-encode latitude first, double-and-invert negatives,
5-bit chunks offset by 63). -/
def encode_polyline (pts : List (ℚ × ℚ)) : List ℕ :=
  encodeLoop 0 0 pts

/-! ### Codec lemmas -/

theorem lor_shiftLeft_eq_add {a k : ℕ} (h : a < 2 ^ k) (b : ℕ) :
    a ||| (b <<< k) = a + b * 2 ^ k := by
  have h2 := Nat.mul_add_lt_is_or (i := k) h b
  calc a ||| b <<< k = a ||| 2 ^ k * b := by rw [Nat.shiftLeft_eq, Nat.mul_comm]
    _ = 2 ^ k * b ||| a := Nat.lor_comm _ _
    _ = 2 ^ k * b + a := h2.symm
    _ = a + b * 2 ^ k := by ring

theorem parseChunk_encodeChunks :
    ∀ (v : ℕ) (rest : List ℕ) (shift result : ℕ), result < 2 ^ shift →
      parseChunk (encodeChunks v ++ rest) shift result =
        some (result + v * 2 ^ shift, rest) := by
  intro v
  induction v using Nat.strong_induction_on with
  | _ v ih =>
    intro rest shift result hlt
    rw [encodeChunks]
    split
    case isTrue hv =>
      have hb : ((v + 63 : ℕ) : ℤ) - 63 = (v : ℤ) := by push_cast; ring
      simp only [List.cons_append, List.nil_append, parseChunk, hb]
      rw [if_pos (by exact_mod_cast hv)]
      have hmod : (((v : ℤ) % 32).toNat) = v := by omega
      rw [hmod, lor_shiftLeft_eq_add hlt]
      rfl
    case isFalse hv =>
      have hb : ((v % 32 + 95 : ℕ) : ℤ) - 63 = ((v % 32 : ℕ) : ℤ) + 32 := by
        push_cast; ring
      simp only [List.cons_append, parseChunk, hb]
      rw [if_neg (by omega)]
      have hmod : ((((v % 32 : ℕ) : ℤ) + 32) % 32).toNat = v % 32 := by omega
      rw [hmod, lor_shiftLeft_eq_add hlt]
      have hlt' : result + v % 32 * 2 ^ shift < 2 ^ (shift + 5) := by
        have h31 : v % 32 ≤ 31 := by omega
        have : 2 ^ (shift + 5) = 2 ^ shift * 32 := by rw [Nat.pow_add]
        nlinarith [Nat.two_pow_pos shift]
      simp only [List.append_eq]
      rw [ih (v / 32) (Nat.div_lt_self (by omega) (by norm_num)) rest (shift + 5) _ hlt']
      have hpow : 2 ^ (shift + 5) = 2 ^ shift * 32 := by rw [Nat.pow_add]
      have hv32 : v % 32 + 32 * (v / 32) = v := Nat.mod_add_div v 32
      congr 2
      nlinarith [hv32, hpow]

theorem unzig_zig (v : ℤ) : unzig (zig v) = v := by
  simp only [unzig, zig]
  split_ifs <;> omega

theorem encodeChunks_ne_nil (v : ℕ) : encodeChunks v ≠ [] := by
  rw [encodeChunks]
  split <;> simp

theorem decodeLoop_cons {c : ℕ} {cs : List ℕ} (lat lng : ℤ) {r1 : ℕ} {cs1 : List ℕ}
    {r2 : ℕ} {cs2 : List ℕ}
    (h1 : parseChunk (c :: cs) 0 0 = some (r1, cs1))
    (h2 : parseChunk cs1 0 0 = some (r2, cs2)) :
    decodeLoop (c :: cs) lat lng
      = (decodeLoop cs2 (lat + unzig r1) (lng + unzig r2)).map
          (fun l => (lng + unzig r2, lat + unzig r1) :: l) := by
  rw [decodeLoop]
  split
  · next heq => rw [h1] at heq; exact absurd heq (by simp)
  · next r1' cs1' heq =>
    rw [h1] at heq
    simp only [Option.some.injEq, Prod.mk.injEq] at heq
    obtain ⟨ha, hb⟩ := heq
    subst ha; subst hb
    split
    · next heq2 => rw [h2] at heq2; exact absurd heq2 (by simp)
    · next r2' cs2' heq2 =>
      rw [h2] at heq2
      simp only [Option.some.injEq, Prod.mk.injEq] at heq2
      obtain ⟨ha2, hb2⟩ := heq2
      subst ha2; subst hb2
      rfl

theorem decodeLoopClaim_cons {c : ℕ} {cs : List ℕ} (lat lng : ℤ) {r1 : ℕ} {cs1 : List ℕ}
    {r2 : ℕ} {cs2 : List ℕ}
    (h1 : parseChunk (c :: cs) 0 0 = some (r1, cs1))
    (h2 : parseChunk cs1 0 0 = some (r2, cs2)) :
    decodeLoopClaim (c :: cs) lat lng
      = (decodeLoopClaim cs2 (lat + unzig r1) (lng + unzig r2)).map
          (fun l => (((lat + unzig r1 : ℤ) : ℚ) / 100000,
                     ((lng + unzig r2 : ℤ) : ℚ) / 100000) :: l) := by
  rw [decodeLoopClaim]
  split
  · next heq => rw [h1] at heq; exact absurd heq (by simp)
  · next r1' cs1' heq =>
    rw [h1] at heq
    simp only [Option.some.injEq, Prod.mk.injEq] at heq
    obtain ⟨ha, hb⟩ := heq
    subst ha; subst hb
    split
    · next heq2 => rw [h2] at heq2; exact absurd heq2 (by simp)
    · next r2' cs2' heq2 =>
      rw [h2] at heq2
      simp only [Option.some.injEq, Prod.mk.injEq] at heq2
      obtain ⟨ha2, hb2⟩ := heq2
      subst ha2; subst hb2
      rfl

/-- Decoding an encoded sequence recovers the scaled-and-rounded integer
coordinates, accumulated from any starting state. -/
theorem decodeLoop_encodeLoop :
    ∀ (pts : List (ℚ × ℚ)) (plat plng : ℤ),
      decodeLoop (encodeLoop plat plng pts) plat plng =
        some (pts.map fun p => (round (p.2 * 100000), round (p.1 * 100000))) := by
  intro pts
  induction pts with
  | nil => intro plat plng; simp [encodeLoop, decodeLoop]
  | cons p rest ih =>
    intro plat plng
    obtain ⟨la, lo⟩ := p
    have henc : encodeLoop plat plng ((la, lo) :: rest)
        = encodeSigned (round (la * 100000) - plat)
            ++ (encodeSigned (round (lo * 100000) - plng)
                  ++ encodeLoop (round (la * 100000)) (round (lo * 100000)) rest) := by
      simp [encodeLoop, List.append_assoc]
    have h1 : parseChunk (encodeSigned (round (la * 100000) - plat)
          ++ (encodeSigned (round (lo * 100000) - plng)
                ++ encodeLoop (round (la * 100000)) (round (lo * 100000)) rest)) 0 0
        = some (zig (round (la * 100000) - plat),
            encodeSigned (round (lo * 100000) - plng)
              ++ encodeLoop (round (la * 100000)) (round (lo * 100000)) rest) := by
      have := parseChunk_encodeChunks (zig (round (la * 100000) - plat))
        (encodeSigned (round (lo * 100000) - plng)
          ++ encodeLoop (round (la * 100000)) (round (lo * 100000)) rest) 0 0 (by norm_num)
      simpa [encodeSigned] using this
    have h2 : parseChunk (encodeSigned (round (lo * 100000) - plng)
          ++ encodeLoop (round (la * 100000)) (round (lo * 100000)) rest) 0 0
        = some (zig (round (lo * 100000) - plng),
            encodeLoop (round (la * 100000)) (round (lo * 100000)) rest) := by
      have := parseChunk_encodeChunks (zig (round (lo * 100000) - plng))
        (encodeLoop (round (la * 100000)) (round (lo * 100000)) rest) 0 0 (by norm_num)
      simpa [encodeSigned] using this
    obtain ⟨c, t, hct⟩ : ∃ c t, encodeSigned (round (la * 100000) - plat) = c :: t := by
      cases h : encodeSigned (round (la * 100000) - plat) with
      | nil => exact absurd h (encodeChunks_ne_nil _)
      | cons c t => exact ⟨c, t, rfl⟩
    rw [henc, hct, List.cons_append]
    rw [hct, List.cons_append] at h1
    rw [decodeLoop_cons plat plng h1 h2, unzig_zig, unzig_zig]
    have hlat : plat + (round (la * 100000) - plat) = round (la * 100000) := by ring
    have hlng : plng + (round (lo * 100000) - plng) = round (lo * 100000) := by ring
    rw [hlat, hlng, ih]
    rfl

/-- `decode_polyline` after the spec-modelled `encode_polyline`: the output
is the input sequence with each coordinate scaled by `1e5` and rounded to
an integer, and with the components of every point swapped. -/
theorem decode_polyline_encode_polyline (pts : List (ℚ × ℚ)) :
    decode_polyline (encode_polyline pts) =
      some (pts.map fun p => (round (p.2 * 100000), round (p.1 * 100000))) :=
  decodeLoop_encodeLoop pts 0 0

/-- The spec's reading of the decoder agrees with the source decoder up to
scaling each component by `1e-5` and swapping the component order. -/
theorem decodeLoopClaim_eq_decodeLoop :
    ∀ (n : ℕ) (cs : List ℕ), cs.length ≤ n → ∀ (lat lng : ℤ),
      decodeLoopClaim cs lat lng =
        (decodeLoop cs lat lng).map
          (List.map fun p => ((p.2 : ℚ) / 100000, (p.1 : ℚ) / 100000)) := by
  intro n
  induction n with
  | zero =>
    intro cs hlen lat lng
    rw [List.length_eq_zero.mp (Nat.le_zero.mp hlen)]
    simp [decodeLoopClaim, decodeLoop]
  | succ n ih =>
    intro cs hlen lat lng
    match cs with
    | [] => simp [decodeLoopClaim, decodeLoop]
    | c :: rest =>
      match h1 : parseChunk (c :: rest) 0 0 with
      | none =>
        rw [decodeLoopClaim, decodeLoop]
        split
        · rfl
        · next heq => rw [h1] at heq; exact absurd heq (by simp)
      | some (r1, cs1) =>
        match h2 : parseChunk cs1 0 0 with
        | none =>
          rw [decodeLoopClaim, decodeLoop]
          split
          · next heq => rw [h1] at heq; exact absurd heq (by simp)
          · next r1' cs1' heq =>
            rw [h1] at heq
            simp only [Option.some.injEq, Prod.mk.injEq] at heq
            obtain ⟨ha, hb⟩ := heq
            subst ha; subst hb
            split
            · rfl
            · next heq2 => rw [h2] at heq2; exact absurd heq2 (by simp)
        | some (r2, cs2) =>
          have hl1 := parseChunk_length_lt _ _ _ _ _ h1
          have hl2 := parseChunk_length_lt _ _ _ _ _ h2
          rw [decodeLoopClaim_cons lat lng h1 h2, decodeLoop_cons lat lng h1 h2]
          rw [ih cs2
            (by simp only [List.length_cons] at hlen hl1; omega)
            (lat + unzig r1) (lng + unzig r2)]
          cases decodeLoop cs2 (lat + unzig r1) (lng + unzig r2) <;> rfl

/-- The source decoder's output determines the spec-claimed output by
swapping components and scaling by `1e-5`. -/
theorem decodePolylineClaim_eq (cs : List ℕ) :
    decodePolylineClaim cs =
      (decode_polyline cs).map
        (List.map fun p => ((p.2 : ℚ) / 100000, (p.1 : ℚ) / 100000)) :=
  decodeLoopClaim_eq_decodeLoop cs.length cs le_rfl 0 0

/-!
### Great-circle distance
(`src/planner/services/hybrid_fuel_optimization.py`, `calculate_distance`)

Python floats are modelled as real numbers.  Note that `math.sqrt` and
`math.asin` raise on arguments outside their domains while `Real.sqrt`
and `Real.arcsin` clamp; the two agree on all inputs whose latitudes lie
in the valid [-90, 90] range, where `0 ≤ a`.
-/

open Real in
/-- `math.radians`: degrees to radians. -/
noncomputable def radians (x : ℝ) : ℝ := x * (π / 180)

open Real in
/-- `calculate_distance`: haversine distance in miles with Earth radius
3959, exactly as in `HybridFuelOptimizationService.calculate_distance`. -/
noncomputable def calculate_distance (point1 point2 : ℝ × ℝ) : ℝ :=
  let lat1 := radians point1.1
  let lon1 := radians point1.2
  let lat2 := radians point2.1
  let lon2 := radians point2.2
  let dlat := lat2 - lat1
  let dlon := lon2 - lon1
  let a := sin (dlat / 2) ^ 2 + cos lat1 * cos lat2 * sin (dlon / 2) ^ 2
  let c := 2 * arcsin (Real.sqrt a)
  c * 3959

/-- `interpolate_point`: independent linear interpolation of latitude and
longitude by `ratio`. -/
def interpolate_point {α : Type} [Field α] (start_coords end_coords : α × α)
    (ratio : α) : α × α :=
  (start_coords.1 + (end_coords.1 - start_coords.1) * ratio,
   start_coords.2 + (end_coords.2 - start_coords.2) * ratio)

/-!
### The fuel-stop planner
(`src/planner/services/hybrid_fuel_optimization.py`, `find_optimal_fuel_stops`)

The planner is embedded generically over a linear ordered field with the
distance function as an explicit parameter, because the source's
`calculate_distance` is transcendental (so not executable); the source
method is the instantiation `find_optimal_fuel_stops` below at `ℝ` with
`calculate_distance`.  The `real_stations` parameter stands for the
external DB query `FuelStation.objects.order_by('retail_price')[:10]`.
Python raises `ZeroDivisionError` where the source divides by a zero
`self.mpg` or `self.max_range`; the embedding returns `none` exactly
there.  `round(x, 2)` is exact round-half-to-even at two decimals.
-/

/-- A row of the external fuel-station catalog, as consumed by the
planner (`models.FuelStation`, projected to the fields the planner reads). -/
structure FuelStationRec (α : Type) where
  name : String
  address : String
  city : String
  state : String
  retail_price : α

/-- The ad hoc `type('Station', (), {...})` object the planner builds for
every stop: station data plus the stop's coordinates and assigned price. -/
structure StopStation (α : Type) where
  name : String
  address : String
  city : String
  state : String
  latitude : α
  longitude : α
  retail_price : α

/-- One element of the planner's `fuel_stops` list. -/
structure FuelStop (α : Type) where
  station : StopStation α
  distance_from_previous : α
  fuel_needed : α
  cost : α

/-- The planner's `summary` dict. -/
structure PlanSummary (α : Type) where
  total_distance_miles : α
  total_fuel_gallons : α
  total_cost : α
  number_of_stops : ℕ

/-- The planner's return value. -/
structure PlanResult (α : Type) where
  fuel_stops : List (FuelStop α)
  summary : PlanSummary α

/-- Python's `round(x, 2)`: round `100 * x` to the nearest integer, ties
to even, divided by 100.  (The source rounds IEEE doubles; the embedding
rounds exact values.) -/
def round2 {α : Type} [LinearOrderedField α] [FloorRing α] (x : α) : α :=
  ((if 100 * x - ⌊100 * x⌋ < 1 / 2 then ⌊100 * x⌋
    else if 1 / 2 < 100 * x - ⌊100 * x⌋ then ⌊100 * x⌋ + 1
    else if ⌊100 * x⌋ % 2 = 0 then ⌊100 * x⌋ else ⌊100 * x⌋ + 1 : ℤ) : α) / 100

/-- `base_price`: the cheapest known price, or the fixed 3.50 fallback
when the catalog is empty (`price_variation` is 0.5 in both branches). -/
def base_price_of {α : Type} [LinearOrderedField α]
    (real_stations : List (FuelStationRec α)) : α :=
  match real_stations with
  | [] => 3.5
  | s :: _ => s.retail_price

/-- The price and identity chosen for stop `i`: the `i`-th catalog row if
`real_stations and i < len(real_stations)`, else the synthesized
fallback (`base_price + 0.5 * (0.5 - (i % 3) * 0.2)` and placeholder
naming). -/
def station_choice {α : Type} [LinearOrderedField α]
    (real_stations : List (FuelStationRec α)) (i : ℕ) : FuelStationRec α :=
  match real_stations.get? i with
  | some s => s
  | none =>
    { name := "Fuel Stop " ++ toString (i + 1),
      address := "Highway " ++ toString (i + 1) ++ ", Exit " ++ toString (i + 1),
      city := "City " ++ toString (i + 1),
      state := "ST",
      retail_price := base_price_of real_stations
        + 0.5 * (0.5 - ((i % 3 : ℕ) : α) * 0.2) }

/-- The planner's `for i in range(stops_needed)` loop, carrying
`current_pos`; `idxs` is the list of remaining loop indices. -/
def build_stops {α : Type} [LinearOrderedField α]
    (dist : α × α → α × α → α) (start_coords end_coords : α × α)
    (real_stations : List (FuelStationRec α)) (mpg : α) (stops_needed : ℕ) :
    List ℕ → α × α → List (FuelStop α)
  | [], _ => []
  | i :: idxs, current_pos =>
    let ratio := ((i : α) + 1) / ((stops_needed : α) + 1)
    let stop_coords := interpolate_point start_coords end_coords ratio
    let distance_from_prev := dist current_pos stop_coords
    let chosen := station_choice real_stations i
    let fuel_needed := distance_from_prev / mpg
    let cost := fuel_needed * chosen.retail_price
    { station := { name := chosen.name, address := chosen.address,
                   city := chosen.city, state := chosen.state,
                   latitude := stop_coords.1, longitude := stop_coords.2,
                   retail_price := chosen.retail_price },
      distance_from_previous := distance_from_prev,
      fuel_needed := fuel_needed,
      cost := cost }
      :: build_stops dist start_coords end_coords real_stations mpg stops_needed
           idxs stop_coords

/-- `find_optimal_fuel_stops`, generic in the field and the distance
function.  Returns `none` exactly where Python raises
`ZeroDivisionError`. -/
def find_optimal_fuel_stops_gen {α : Type} [LinearOrderedField α] [FloorRing α]
    (dist : α × α → α × α → α) (max_range mpg : α)
    (real_stations : List (FuelStationRec α))
    (start_coords end_coords : α × α) : Option (PlanResult α) :=
  let total_distance := dist start_coords end_coords
  if total_distance ≤ max_range then
    if mpg = 0 then none
    else
      some { fuel_stops := [],
             summary := { total_distance_miles := round2 total_distance,
                          total_fuel_gallons := round2 (total_distance / mpg),
                          total_cost := 0,
                          number_of_stops := 0 } }
  else
    if max_range = 0 then none
    else
      let stops_needed : ℤ := ⌈total_distance / max_range⌉ - 1
      if mpg = 0 ∧ 1 ≤ stops_needed then none
      else
        let stops := build_stops dist start_coords end_coords real_stations mpg
          stops_needed.toNat (List.range stops_needed.toNat) start_coords
        some { fuel_stops := stops,
               summary := { total_distance_miles := round2 total_distance,
                            total_fuel_gallons :=
                              round2 ((stops.map FuelStop.fuel_needed).sum),
                            total_cost := round2 ((stops.map FuelStop.cost).sum),
                            number_of_stops := stops.length } }

/-- The source planner: the generic planner at `ℝ` with the haversine
`calculate_distance`. -/
noncomputable def find_optimal_fuel_stops (max_range mpg : ℝ)
    (real_stations : List (FuelStationRec ℝ))
    (start_coords end_coords : ℝ × ℝ) : Option (PlanResult ℝ) :=
  find_optimal_fuel_stops_gen calculate_distance max_range mpg real_stations
    start_coords end_coords

/-- The stop list of a planner result (`[]` where the source raises). -/
def stopsOf {α : Type} (o : Option (PlanResult α)) : List (FuelStop α) :=
  match o with
  | none => []
  | some p => p.fuel_stops

/-!
### Location resolution (`src/planner/services/routing.py`, `geocode_location`)

String inputs are modelled as lists of characters.  The outcome records
the control flow: a literal pair parsed and returned directly with no
request, a single geocoding-provider request issued with the split
city/state, or `None` returned with no request.  (The `dict` branch of
the source applies only to non-string inputs and is not modelled.)
-/

/-- The three possible outcomes of `geocode_location` on a string. -/
inductive GeoOutcome where
  | direct (lat lon : ℚ)
  | providerCall (city state : List Char)
  | noResult
deriving DecidableEq

/-- ASCII whitespace for `str.strip`. -/
def pyWhitespace (c : Char) : Bool :=
  c = ' ' || c = '\t' || c = '\n' || c = '\r'

/-- Python `str.strip()`: drop whitespace from both ends. -/
def strip (s : List Char) : List Char :=
  ((s.dropWhile pyWhitespace).reverse.dropWhile pyWhitespace).reverse

/-- Python `str.split(sep)` for a one-character separator. -/
def splitOnChar (sep : Char) : List Char → List (List Char)
  | [] => [[]]
  | c :: rest =>
    if c = sep then [] :: splitOnChar sep rest
    else
      match splitOnChar sep rest with
      | [] => [[c]]
      | t :: ts => (c :: t) :: ts

/-- Digit run to a natural number. -/
def digitsToNat (s : List Char) : ℕ :=
  s.foldl (fun n c => 10 * n + (c.toNat - 48)) 0

/-- An unsigned decimal literal: `digits`, `digits.digits`, `digits.` or
`.digits` (at least one digit overall). -/
def parseUnsigned (s : List Char) : Option ℚ :=
  match splitOnChar '.' s with
  | [ip] =>
    if ip ≠ [] ∧ ip.all Char.isDigit then some (digitsToNat ip) else none
  | [ip, fp] =>
    if (ip ≠ [] ∨ fp ≠ []) ∧ ip.all Char.isDigit ∧ fp.all Char.isDigit then
      some ((digitsToNat ip : ℚ) + (digitsToNat fp : ℚ) / 10 ^ fp.length)
    else none
  | _ => none

/-- Modelled on Python's `float()` restricted to plain decimal literals
(optional sign, digits, optional fraction); the builtin additionally
accepts exponents, `inf`/`nan` and underscores, none of which the
resolution claims exercise. -/
def pyFloat (s : List Char) : Option ℚ :=
  match strip s with
  | '+' :: u => parseUnsigned u
  | '-' :: u => (parseUnsigned u).map Neg.neg
  | u => parseUnsigned u

/-- `geocode_location` from `RoutePlanningService` on a string input:
first the guarded literal-pair parse (`if ',' in location`, a 2-way
split, `float` on both stripped halves, any `ValueError` suppressed),
then the fallback split into `city, state` issuing one provider request
when there are at least two parts, else `None`. -/
def geocode_location (location : List Char) : GeoOutcome :=
  let attempt : Option (ℚ × ℚ) :=
    if location.contains ',' then
      match splitOnChar ',' location with
      | [a, b] =>
        match pyFloat (strip a), pyFloat (strip b) with
        | some la, some lo => some (la, lo)
        | _, _ => none
      | _ => none
    else none
  match attempt with
  | some (la, lo) => .direct la lo
  | none =>
    let parts := splitOnChar ',' location
    if 2 ≤ parts.length then
      .providerCall (strip (parts.getD 0 [])) (strip (parts.getD 1 []))
    else .noResult

/-!
### Batch geocoding (`src/planner/services/geocoding.py`)

`geocode_address` is cache-then-HTTP; `geocode_fuel_stations` iterates
over the stations not yet flagged `geocoded` and sleeps
`rate_limit_delay = 1.1` seconds after every one except the last.  The
embedding produces the sequence of externally observable events (cache
hit, HTTP request, sleep); the cache is threaded through the loop since
a successful request writes its result back (the 24h TTL and the
station-record DB save are external effects outside the model).
-/

/-- The `(address, city, state)` triple keying `geocode_address`'s cache
and query (string normalization of the key does not affect the events
modelled). -/
structure GeoKey where
  address : String
  city : String
  state : String
deriving DecidableEq

/-- A `FuelStation` row as seen by `geocode_fuel_stations`. -/
structure GeoStation where
  key : GeoKey
  geocoded : Bool
deriving DecidableEq

/-- Externally observable events of a batch-geocoding run. -/
inductive GeoEvent where
  | cacheHit (k : GeoKey)
  | request (k : GeoKey)
  | sleep
deriving DecidableEq

/-- `geocode_address`: a cache hit returns the cached coordinate with no
request; otherwise exactly one HTTP request is issued and a successful
result is written back to the cache.  Returns (result, new cache,
events). -/
def geocode_address (provider cache : GeoKey → Option (ℚ × ℚ)) (k : GeoKey) :
    Option (ℚ × ℚ) × (GeoKey → Option (ℚ × ℚ)) × List GeoEvent :=
  match cache k with
  | some c => (some c, cache, [.cacheHit k])
  | none =>
    match provider k with
    | some c => (some c, fun k2 => if k2 = k then some c else cache k2, [.request k])
    | none => (none, cache, [.request k])

/-- The `for i, station in enumerate(stations_to_geocode)` loop: each
station's events, with a `sleep` appended after every station but the
last (`if i < len(stations_to_geocode) - 1`). -/
def geocode_loop (provider : GeoKey → Option (ℚ × ℚ)) :
    (GeoKey → Option (ℚ × ℚ)) → List GeoStation → List GeoEvent
  | _, [] => []
  | cache, [s] => (geocode_address provider cache s.key).2.2
  | cache, s :: s2 :: rest =>
    let r := geocode_address provider cache s.key
    r.2.2 ++ [.sleep] ++ geocode_loop provider r.2.1 (s2 :: rest)

/-- `geocode_fuel_stations`: stations already flagged `geocoded` are
filtered out up front, then the rate-limited loop runs. -/
def geocode_fuel_stations (provider cache : GeoKey → Option (ℚ × ℚ))
    (stations : List GeoStation) : List GeoEvent :=
  geocode_loop provider cache (stations.filter (fun s => !s.geocoded))

/-- Whether an event is an HTTP request. -/
def isRequest : GeoEvent → Bool
  | .request _ => true
  | _ => false

/-- The keys of the requests in a trace, in order. -/
def requestKeys (es : List GeoEvent) : List GeoKey :=
  es.filterMap (fun e => match e with | .request k => some k | _ => none)

/-!
### Auxiliary observers and concrete fixtures used by the statements
-/

/-- Sum of `distance_from_previous` over a stop list. -/
def legsSum {α : Type} [LinearOrderedField α] (stops : List (FuelStop α)) : α :=
  (stops.map FuelStop.distance_from_previous).sum

/-- Position of the last stop (its station's coordinates), or the origin
when there are no stops; the final leg of a plan runs from here to the
destination. -/
def lastStopPos {α : Type} (origin : α × α) (stops : List (FuelStop α)) : α × α :=
  match stops.getLast? with
  | none => origin
  | some st => (st.station.latitude, st.station.longitude)

/-- Fixture: a geocoding key held in the cache. -/
def exKey1 : GeoKey := ⟨"100 Main St", "Springfield", "IL"⟩

/-- Fixture: a geocoding key absent from the cache. -/
def exKey2 : GeoKey := ⟨"200 Oak Ave", "Peoria", "IL"⟩

/-- Fixture: a cache holding `exKey1` only. -/
def exCache : GeoKey → Option (ℚ × ℚ) :=
  fun k => if k = exKey1 then some (40, -89) else none

/-- Fixture: a provider that resolves every query. -/
def exProvider : GeoKey → Option (ℚ × ℚ) :=
  fun _ => some (41, -88)

/-- Fixture: two stations pending geocoding, the first one's key cached. -/
def exStations : List GeoStation := [⟨exKey1, false⟩, ⟨exKey2, false⟩]

/-- Fixture: the character codes of the canonical encoded polyline
`"_p~iF~ps|U"`, which is the standard encoding of the single point
(38.5, -120.2). -/
def exPolyline : List ℕ := [95, 112, 126, 105, 70, 126, 112, 115, 124, 85]

/-!
## Lemmas about the planner loop and branches
-/

section PlannerLemmas

variable {α : Type} [LinearOrderedField α] [FloorRing α]
variable (dist : α × α → α × α → α) (max_range mpg : α)
variable (real_stations : List (FuelStationRec α)) (start_coords end_coords : α × α)

theorem build_stops_length (stops_needed : ℕ) :
    ∀ (idxs : List ℕ) (cur : α × α),
      (build_stops dist start_coords end_coords real_stations mpg stops_needed
        idxs cur).length = idxs.length := by
  intro idxs
  induction idxs with
  | nil => intro cur; rfl
  | cons i idxs ih =>
    intro cur
    simp only [build_stops, List.length_cons, ih]

theorem build_stops_dfp_nonneg (stops_needed : ℕ)
    (hdist : ∀ p q, 0 ≤ dist p q) :
    ∀ (idxs : List ℕ) (cur : α × α),
      List.Forall (fun st => 0 ≤ st.distance_from_previous)
        (build_stops dist start_coords end_coords real_stations mpg stops_needed
          idxs cur) := by
  intro idxs
  induction idxs with
  | nil => intro cur; trivial
  | cons i idxs ih =>
    intro cur
    simp only [build_stops]
    rw [List.forall_cons]
    exact ⟨hdist _ _, ih _⟩

theorem find_gen_le_eq (h : dist start_coords end_coords ≤ max_range)
    (hmpg : ¬ mpg = 0) :
    find_optimal_fuel_stops_gen dist max_range mpg real_stations start_coords end_coords
      = some { fuel_stops := [],
               summary := { total_distance_miles := round2 (dist start_coords end_coords),
                            total_fuel_gallons :=
                              round2 (dist start_coords end_coords / mpg),
                            total_cost := 0,
                            number_of_stops := 0 } } := by
  simp only [find_optimal_fuel_stops_gen]
  rw [if_pos h, if_neg hmpg]

theorem find_gen_le_none (h : dist start_coords end_coords ≤ max_range)
    (hmpg : mpg = 0) :
    find_optimal_fuel_stops_gen dist max_range mpg real_stations start_coords end_coords
      = none := by
  simp only [find_optimal_fuel_stops_gen]
  rw [if_pos h, if_pos hmpg]

theorem find_gen_gt_eq (h : ¬ dist start_coords end_coords ≤ max_range)
    (hmr : ¬ max_range = 0)
    (hg : ¬ (mpg = 0 ∧ 1 ≤ ⌈dist start_coords end_coords / max_range⌉ - 1)) :
    find_optimal_fuel_stops_gen dist max_range mpg real_stations start_coords end_coords
      = some { fuel_stops :=
                 build_stops dist start_coords end_coords real_stations mpg
                   (⌈dist start_coords end_coords / max_range⌉ - 1).toNat
                   (List.range (⌈dist start_coords end_coords / max_range⌉ - 1).toNat)
                   start_coords,
               summary := { total_distance_miles := round2 (dist start_coords end_coords),
                            total_fuel_gallons :=
                              round2 (((build_stops dist start_coords end_coords
                                real_stations mpg
                                (⌈dist start_coords end_coords / max_range⌉ - 1).toNat
                                (List.range
                                  (⌈dist start_coords end_coords / max_range⌉ - 1).toNat)
                                start_coords).map FuelStop.fuel_needed).sum),
                            total_cost :=
                              round2 (((build_stops dist start_coords end_coords
                                real_stations mpg
                                (⌈dist start_coords end_coords / max_range⌉ - 1).toNat
                                (List.range
                                  (⌈dist start_coords end_coords / max_range⌉ - 1).toNat)
                                start_coords).map FuelStop.cost).sum),
                            number_of_stops :=
                              (build_stops dist start_coords end_coords real_stations mpg
                                (⌈dist start_coords end_coords / max_range⌉ - 1).toNat
                                (List.range
                                  (⌈dist start_coords end_coords / max_range⌉ - 1).toNat)
                                start_coords).length } } := by
  simp only [find_optimal_fuel_stops_gen]
  rw [if_neg h, if_neg hmr, if_neg hg]

theorem find_gen_gt_zero_none (h : ¬ dist start_coords end_coords ≤ max_range)
    (hmr : max_range = 0) :
    find_optimal_fuel_stops_gen dist max_range mpg real_stations start_coords end_coords
      = none := by
  simp only [find_optimal_fuel_stops_gen]
  rw [if_neg h, if_pos hmr]

theorem find_gen_gt_none (h : ¬ dist start_coords end_coords ≤ max_range)
    (hmr : ¬ max_range = 0)
    (hg : mpg = 0 ∧ 1 ≤ ⌈dist start_coords end_coords / max_range⌉ - 1) :
    find_optimal_fuel_stops_gen dist max_range mpg real_stations start_coords end_coords
      = none := by
  simp only [find_optimal_fuel_stops_gen]
  rw [if_neg h, if_neg hmr, if_pos hg]

end PlannerLemmas

/-!
## Claim C2 — stop count
-/

/-- **C2**: for every planning run with `totalDistance > 0` and
`maxRange > 0` that reports a plan, the reported number of fuel stops is
`max 0 (⌈totalDistance / maxRange⌉ - 1)`; it is `0` exactly when
`totalDistance ≤ maxRange`, and `⌈totalDistance / maxRange⌉ - 1 ≥ 1`
otherwise. -/
theorem claim2_stop_count {α : Type} [LinearOrderedField α] [FloorRing α]
    (dist : α × α → α × α → α) (max_range mpg : α)
    (real_stations : List (FuelStationRec α)) (start_coords end_coords : α × α)
    (htot : 0 < dist start_coords end_coords) (hmr : 0 < max_range)
    (hsome : (find_optimal_fuel_stops_gen dist max_range mpg real_stations
      start_coords end_coords).isSome = true) :
    (find_optimal_fuel_stops_gen dist max_range mpg real_stations start_coords
        end_coords).map (fun p => (p.summary.number_of_stops : ℤ))
      = some (max 0 (⌈dist start_coords end_coords / max_range⌉ - 1))
    ∧ ((find_optimal_fuel_stops_gen dist max_range mpg real_stations start_coords
        end_coords).map (fun p => p.summary.number_of_stops) = some 0
      ↔ dist start_coords end_coords ≤ max_range)
    ∧ (max_range < dist start_coords end_coords →
        1 ≤ ⌈dist start_coords end_coords / max_range⌉ - 1) := by
  by_cases h : dist start_coords end_coords ≤ max_range
  · by_cases hmpg : mpg = 0
    · rw [find_gen_le_none dist max_range mpg real_stations start_coords end_coords
        h hmpg] at hsome
      simp at hsome
    · rw [find_gen_le_eq dist max_range mpg real_stations start_coords end_coords
        h hmpg]
      have hce : ⌈dist start_coords end_coords / max_range⌉ = 1 := by
        rw [Int.ceil_eq_iff]
        constructor
        · push_cast
          simpa using div_pos htot hmr
        · push_cast
          exact (div_le_one hmr).mpr h
      refine ⟨by simp [hce], by simp [h], fun hlt => absurd hlt (not_lt.mpr h)⟩
  · have hmr0 : ¬ max_range = 0 := ne_of_gt hmr
    have hdiv : 1 < dist start_coords end_coords / max_range :=
      (one_lt_div hmr).mpr (not_le.mp h)
    have hsn : 1 ≤ ⌈dist start_coords end_coords / max_range⌉ - 1 := by
      have h2 : (1 : ℤ) < ⌈dist start_coords end_coords / max_range⌉ := by
        rw [Int.lt_ceil]
        push_cast
        exact hdiv
      omega
    have hg : ¬ (mpg = 0 ∧ 1 ≤ ⌈dist start_coords end_coords / max_range⌉ - 1) := by
      intro hand
      rw [find_gen_gt_none dist max_range mpg real_stations start_coords end_coords
        h hmr0 hand] at hsome
      simp at hsome
    rw [find_gen_gt_eq dist max_range mpg real_stations start_coords end_coords
      h hmr0 hg]
    rw [build_stops_length, List.length_range]
    refine ⟨?_, ?_, fun _ => hsn⟩
    · simp only [Option.map_some']
      rw [Int.toNat_of_nonneg (by omega), max_eq_right (by omega)]
    · simp only [Option.map_some', Option.some.injEq]
      constructor
      · intro h0
        exfalso
        omega
      · intro hle
        exact absurd hle h

/-- Witness for C2: a concrete 600-mile run with a 500-mile range
reports `max 0 (⌈600/500⌉ - 1)` stops, and not zero stops. -/
theorem claim2_witness :
    (find_optimal_fuel_stops_gen (fun _ _ => (600 : ℚ)) 500 10 [] (0, 0)
        (0, 0)).map (fun p => (p.summary.number_of_stops : ℤ))
      = some (max 0 (⌈(600 : ℚ) / 500⌉ - 1))
    ∧ ((find_optimal_fuel_stops_gen (fun _ _ => (600 : ℚ)) 500 10 [] (0, 0)
        (0, 0)).map (fun p => p.summary.number_of_stops) = some 0
      ↔ (600 : ℚ) ≤ 500) := by
  have hsome : (find_optimal_fuel_stops_gen (fun _ _ => (600 : ℚ)) 500 10 [] (0, 0)
      (0, 0)).isSome = true := by
    rw [find_gen_gt_eq (fun _ _ => (600 : ℚ)) 500 10 [] (0, 0) (0, 0)
      (by norm_num) (by norm_num) (by norm_num)]
    rfl
  have h := claim2_stop_count (fun _ _ => (600 : ℚ)) 500 10 [] (0, 0) (0, 0)
    (by norm_num) (by norm_num) hsome
  exact ⟨h.1, h.2.1⟩

/-!
## Claim C4 — within-range runs
-/

/-- **C4 (amended)**: whenever `totalDistance ≤ maxRange` and the planner
returns (i.e. `mpg ≠ 0`), it returns zero stops, an empty stop list,
total cost exactly `0`, and total fuel `totalDistance / mpgEquivalent`
rounded to two decimals (the source's presentation rounding). -/
theorem claim4_within_range_plan {α : Type} [LinearOrderedField α] [FloorRing α]
    (dist : α × α → α × α → α) (max_range mpg : α)
    (real_stations : List (FuelStationRec α)) (start_coords end_coords : α × α)
    (h : dist start_coords end_coords ≤ max_range)
    (hsome : (find_optimal_fuel_stops_gen dist max_range mpg real_stations
      start_coords end_coords).isSome = true) :
    find_optimal_fuel_stops_gen dist max_range mpg real_stations start_coords end_coords
      = some { fuel_stops := [],
               summary := { total_distance_miles := round2 (dist start_coords end_coords),
                            total_fuel_gallons :=
                              round2 (dist start_coords end_coords / mpg),
                            total_cost := 0,
                            number_of_stops := 0 } } := by
  by_cases hmpg : mpg = 0
  · rw [find_gen_le_none dist max_range mpg real_stations start_coords end_coords
      h hmpg] at hsome
    simp at hsome
  · exact find_gen_le_eq dist max_range mpg real_stations start_coords end_coords h hmpg

/-- Counterexample to C4 as stated: on a 100-mile run with
`mpg = 3`, the reported total fuel is the rounded `33.33`, which differs
from the exact `totalDistance / mpgEquivalent = 100/3`. -/
theorem claim4_counterexample :
    (find_optimal_fuel_stops_gen (fun _ _ => (100 : ℚ)) 500 3 [] (0, 0)
        (1, 1)).map (fun p => p.summary.total_fuel_gallons) = some (3333 / 100)
    ∧ (3333 / 100 : ℚ) ≠ 100 / 3 := by
  constructor
  · rw [find_gen_le_eq (fun _ _ => (100 : ℚ)) 500 3 [] (0, 0) (1, 1)
      (by norm_num) (by norm_num)]
    have hf : ⌊(100 : ℚ) * (100 / 3)⌋ = 3333 := by
      rw [show (100 : ℚ) * (100 / 3) = 10000 / 3 by norm_num, Int.floor_eq_iff]
      constructor <;> norm_num
    have hr : round2 ((100 : ℚ) / 3) = 3333 / 100 := by
      simp only [round2, hf]
      norm_num
    simp only [Option.map_some', hr]
  · norm_num

/-- Witness for C4: a concrete 80-mile run with a 500-mile range and
`mpg = 4` yields the zero-stop plan of the amended claim. -/
theorem claim4_witness :
    find_optimal_fuel_stops_gen (fun _ _ => (80 : ℚ)) 500 4 [] (0, 0) (1, 1)
      = some { fuel_stops := [],
               summary := { total_distance_miles := round2 (80 : ℚ),
                            total_fuel_gallons := round2 ((80 : ℚ) / 4),
                            total_cost := 0,
                            number_of_stops := 0 } } :=
  claim4_within_range_plan (fun _ _ => (80 : ℚ)) 500 4 [] (0, 0) (1, 1)
    (by norm_num)
    (by rw [find_gen_le_eq (fun _ _ => (80 : ℚ)) 500 4 [] (0, 0) (1, 1)
          (by norm_num) (by norm_num)]
        rfl)

/-!
## Claim C7 — configuration validation
-/

/-- **C7 (amended)**: the planner performs no validation of
`maxRange`/`mpgEquivalent` and raises no `InvalidConfig`: with a negative
`maxRange` and positive distance it does not reject but returns a
complete plan with an empty stop list and zero reported stops. -/
theorem claim7_no_config_validation {α : Type} [LinearOrderedField α] [FloorRing α]
    (dist : α × α → α × α → α) (max_range mpg : α)
    (real_stations : List (FuelStationRec α)) (start_coords end_coords : α × α)
    (hmr : max_range < 0) (htot : 0 < dist start_coords end_coords) :
    (find_optimal_fuel_stops_gen dist max_range mpg real_stations start_coords
        end_coords).map (fun p => p.summary.number_of_stops) = some 0
    ∧ (find_optimal_fuel_stops_gen dist max_range mpg real_stations start_coords
        end_coords).map (fun p => p.fuel_stops) = some [] := by
  have h : ¬ dist start_coords end_coords ≤ max_range :=
    not_le.mpr (hmr.trans htot)
  have hmr0 : ¬ max_range = 0 := ne_of_lt hmr
  have hsn : ⌈dist start_coords end_coords / max_range⌉ - 1 ≤ -1 := by
    have hdivneg : dist start_coords end_coords / max_range ≤ 0 :=
      le_of_lt (div_neg_of_pos_of_neg htot hmr)
    have h0 : ⌈dist start_coords end_coords / max_range⌉ ≤ 0 :=
      Int.ceil_le.mpr (by exact_mod_cast hdivneg)
    omega
  have hg : ¬ (mpg = 0 ∧ 1 ≤ ⌈dist start_coords end_coords / max_range⌉ - 1) := by
    rintro ⟨-, h1⟩
    omega
  rw [find_gen_gt_eq dist max_range mpg real_stations start_coords end_coords
    h hmr0 hg]
  have htn : (⌈dist start_coords end_coords / max_range⌉ - 1).toNat = 0 := by omega
  rw [htn]
  constructor
  · simp [build_stops_length]
  · simp [build_stops]

/-- Counterexample to C7 as stated: with the invalid configuration
`maxRange = -5`, the planner does not reject — it returns a complete
plan (empty stop list, zero stops, zero cost). -/
theorem claim7_counterexample :
    find_optimal_fuel_stops_gen (fun _ _ => (100 : ℚ)) (-5) 10 [] (0, 0) (1, 1)
      = some { fuel_stops := [],
               summary := { total_distance_miles := 100,
                            total_fuel_gallons := 0,
                            total_cost := 0,
                            number_of_stops := 0 } } := by
  have hce : ⌈(100 : ℚ) / (-5)⌉ = -20 := by
    rw [Int.ceil_eq_iff]
    constructor <;> norm_num
  have hr100 : round2 (100 : ℚ) = 100 := by
    have hf : ⌊(100 : ℚ) * 100⌋ = 10000 := by
      rw [show (100 : ℚ) * 100 = 10000 by norm_num, Int.floor_eq_iff]
      constructor <;> norm_num
    simp only [round2, hf]
    norm_num
  have hr0 : round2 (0 : ℚ) = 0 := by
    have hf : ⌊(100 : ℚ) * 0⌋ = 0 := by
      rw [show (100 : ℚ) * 0 = 0 by norm_num, Int.floor_eq_iff]
      constructor <;> norm_num
    simp only [round2, hf]
    norm_num
  rw [find_gen_gt_eq (fun _ _ => (100 : ℚ)) (-5) 10 [] (0, 0) (1, 1)
    (by norm_num) (by norm_num) (by norm_num)]
  rw [hce]
  simp only [show ((-20 : ℤ) - 1).toNat = 0 from rfl, List.range_zero]
  simp [build_stops, hr100, hr0]

/-- Witness for C7: the amended theorem applied at the concrete invalid
configuration `maxRange = -5`, `mpg = 10`, distance 100. -/
theorem claim7_witness :
    (find_optimal_fuel_stops_gen (fun _ _ => (100 : ℚ)) (-5) 10 [] (0, 0)
        (1, 1)).map (fun p => p.summary.number_of_stops) = some 0
    ∧ (find_optimal_fuel_stops_gen (fun _ _ => (100 : ℚ)) (-5) 10 [] (0, 0)
        (1, 1)).map (fun p => p.fuel_stops) = some [] :=
  claim7_no_config_validation (fun _ _ => (100 : ℚ)) (-5) 10 [] (0, 0) (1, 1)
    (by norm_num) (by norm_num)

/-!
## Claim C9 — distance symmetry and zero
-/

/-- **C9**: `calculate_distance` is symmetric in its two arguments, and
the distance from any point to itself is `0`. -/
theorem claim9_distance_symm_zero :
    (∀ a b : ℝ × ℝ, calculate_distance a b = calculate_distance b a)
    ∧ (∀ a : ℝ × ℝ, calculate_distance a a = 0) := by
  constructor
  · intro a b
    simp only [calculate_distance]
    have h1 : Real.sin ((radians b.1 - radians a.1) / 2) ^ 2
        = Real.sin ((radians a.1 - radians b.1) / 2) ^ 2 := by
      rw [show (radians a.1 - radians b.1) / 2
          = -((radians b.1 - radians a.1) / 2) by ring, Real.sin_neg]
      ring
    have h2 : Real.sin ((radians b.2 - radians a.2) / 2) ^ 2
        = Real.sin ((radians a.2 - radians b.2) / 2) ^ 2 := by
      rw [show (radians a.2 - radians b.2) / 2
          = -((radians b.2 - radians a.2) / 2) by ring, Real.sin_neg]
      ring
    rw [h1, h2, mul_comm (Real.cos (radians a.1)) (Real.cos (radians b.1))]
  · intro a
    simp only [calculate_distance, sub_self, zero_div, Real.sin_zero]
    norm_num

/-- The haversine distance is non-negative on all inputs. -/
theorem calculate_distance_nonneg (p q : ℝ × ℝ) : 0 ≤ calculate_distance p q := by
  simp only [calculate_distance]
  have h := Real.arcsin_nonneg.mpr
    (Real.sqrt_nonneg (Real.sin ((radians q.1 - radians p.1) / 2) ^ 2
      + Real.cos (radians p.1) * Real.cos (radians q.1)
        * Real.sin ((radians q.2 - radians p.2) / 2) ^ 2))
  linarith

/-!
## Claim C3 — stop distance invariants
-/

/-- **C3 (amended)**: in every plan the planner produces, each stop's
`distance_from_previous` is non-negative.  (The claim's second half —
that the stop legs plus the final leg sum to the total route distance —
fails; see the counterexample.) -/
theorem claim3_stop_distances_nonneg :
    ∀ (max_range mpg : ℝ) (real_stations : List (FuelStationRec ℝ))
      (start_coords end_coords : ℝ × ℝ),
      List.Forall (fun st => 0 ≤ st.distance_from_previous)
        (stopsOf (find_optimal_fuel_stops max_range mpg real_stations
          start_coords end_coords)) := by
  intro mr mpg rs s e
  by_cases h : calculate_distance s e ≤ mr
  · by_cases hmpg : mpg = 0
    · rw [find_optimal_fuel_stops,
        find_gen_le_none calculate_distance mr mpg rs s e h hmpg]
      trivial
    · rw [find_optimal_fuel_stops,
        find_gen_le_eq calculate_distance mr mpg rs s e h hmpg]
      trivial
  · by_cases hmr0 : mr = 0
    · rw [find_optimal_fuel_stops,
        find_gen_gt_zero_none calculate_distance mr mpg rs s e h hmr0]
      trivial
    · by_cases hg : mpg = 0 ∧ 1 ≤ ⌈calculate_distance s e / mr⌉ - 1
      · rw [find_optimal_fuel_stops,
          find_gen_gt_none calculate_distance mr mpg rs s e h hmr0 hg]
        trivial
      · rw [find_optimal_fuel_stops,
          find_gen_gt_eq calculate_distance mr mpg rs s e h hmr0 hg]
        simp only [stopsOf]
        exact build_stops_dfp_nonneg calculate_distance mpg rs s e _
          calculate_distance_nonneg _ _

section Claim3Counterexample

open Real

theorem sqrt2_le_two : Real.sqrt 2 ≤ 2 :=
  (Real.sqrt_le_left (by norm_num)).mpr (by norm_num)

/-- Haversine distance between two points on the 45°N parallel separated
by 45° of longitude. -/
theorem dist_45_lon (x y : ℝ) (h : y - x = 45) :
    calculate_distance (45, x) (45, y)
      = 2 * Real.arcsin (Real.sqrt ((2 - Real.sqrt 2) / 8)) * 3959 := by
  have hss : Real.sqrt 2 * Real.sqrt 2 = 2 := Real.mul_self_sqrt (by norm_num)
  simp only [calculate_distance, radians]
  rw [show ((45:ℝ) * (π / 180) - 45 * (π / 180)) / 2 = 0 by ring]
  rw [show (y * (π / 180) - x * (π / 180)) / 2 = (y - x) * (π / 360) by ring, h]
  rw [show (45:ℝ) * (π / 360) = π / 8 by ring]
  rw [show (45:ℝ) * (π / 180) = π / 4 by ring]
  rw [Real.sin_zero, Real.sin_pi_div_eight, Real.cos_pi_div_four]
  rw [show (√(2 - √2) / 2) ^ 2 = √(2 - √2) ^ 2 / 4 by ring]
  rw [Real.sq_sqrt (by nlinarith [sqrt2_le_two] : (0:ℝ) ≤ 2 - √2)]
  rw [show (0:ℝ) ^ 2 + √2 / 2 * (√2 / 2) * ((2 - √2) / 4) = √2 * √2 * ((2 - √2) / 16)
    by ring]
  rw [hss]
  rw [show (2:ℝ) * ((2 - √2) / 16) = (2 - √2) / 8 by ring]

/-- Haversine distance from (45, 0) to (45, 90). -/
theorem dist_45_90 :
    calculate_distance (45, 0) (45, 90) = π / 3 * 3959 := by
  have h2 : (Real.sqrt 2) ^ 2 = 2 := Real.sq_sqrt (by norm_num)
  simp only [calculate_distance, radians]
  rw [show ((45:ℝ) * (π / 180) - 45 * (π / 180)) / 2 = 0 by ring]
  rw [show ((90:ℝ) * (π / 180) - 0 * (π / 180)) / 2 = π / 4 by ring]
  rw [show (45:ℝ) * (π / 180) = π / 4 by ring]
  rw [Real.sin_zero, Real.sin_pi_div_four, Real.cos_pi_div_four]
  rw [show (0:ℝ) ^ 2 + √2 / 2 * (√2 / 2) * (√2 / 2) ^ 2 = 1 / 4 by
    linear_combination (((√2:ℝ) ^ 2 + 2) / 16) * h2]
  rw [show (1/4 : ℝ) = (1/2) ^ 2 by norm_num, Real.sqrt_sq (by norm_num)]
  rw [show (1/2 : ℝ) = Real.sin (π / 6) from (Real.sin_pi_div_six).symm]
  rw [Real.arcsin_sin (by linarith [Real.pi_pos]) (by linarith [Real.pi_pos])]
  ring

/-- On `[0, 1]`, `arcsin` dominates the identity. -/
theorem le_arcsin_of_mem {z : ℝ} (h0 : 0 ≤ z) (h1 : z ≤ 1) : z ≤ Real.arcsin z := by
  rcases eq_or_lt_of_le h0 with heq | hlt
  · rw [← heq]
    simp [Real.arcsin_zero]
  · have hpos : 0 < Real.arcsin z := Real.arcsin_pos.mpr hlt
    have hs := Real.sin_lt hpos
    rw [Real.sin_arcsin (by linarith) h1] at hs
    linarith

theorem pi_ceil_eval : ⌈π / 3 * 3959 / 4000⌉ = 2 := by
  rw [Int.ceil_eq_iff]
  constructor
  · push_cast
    nlinarith [Real.pi_gt_d2]
  · push_cast
    nlinarith [Real.pi_lt_d2]

/-- Evaluating the planner on the (45,0) → (45,90) run with a 4000-mile
range: one stop, placed by the loop at ratio 1/2. -/
theorem c3_stops_eval :
    stopsOf (find_optimal_fuel_stops 4000 10 [] ((45:ℝ), 0) (45, 90))
      = build_stops calculate_distance ((45:ℝ), 0) (45, 90) [] 10 1 [0] (45, 0) := by
  have hgt : ¬ calculate_distance ((45:ℝ), 0) (45, 90) ≤ 4000 := by
    rw [dist_45_90]
    push_neg
    nlinarith [Real.pi_gt_d2]
  rw [find_optimal_fuel_stops,
    find_gen_gt_eq calculate_distance 4000 10 [] ((45:ℝ), 0) (45, 90) hgt
      (by norm_num) (by norm_num)]
  simp only [stopsOf]
  rw [dist_45_90, pi_ceil_eval]
  simp only [show ((2:ℤ) - 1).toNat = 1 from rfl, show List.range 1 = [0] from rfl]

theorem c3_legs_eval :
    legsSum (build_stops calculate_distance ((45:ℝ), 0) (45, 90) [] 10 1 [0] (45, 0))
      = calculate_distance ((45:ℝ), 0) (45, 45) := by
  simp [build_stops, legsSum, interpolate_point]
  norm_num

theorem c3_last_eval :
    lastStopPos ((45:ℝ), 0)
        (build_stops calculate_distance ((45:ℝ), 0) (45, 90) [] 10 1 [0] (45, 0))
      = (45, 45) := by
  simp [build_stops, lastStopPos, interpolate_point]
  norm_num

/-- Counterexample to C3 as stated: on the run from (45, 0) to (45, 90)
with a 4000-mile range, the produced plan has one stop (at the linear
midpoint (45, 45)), and the sum of `distance_from_previous` over the
stops plus the final leg to the destination exceeds the total route
distance by more than 100 miles — far beyond any rounding tolerance,
because the interpolated stop is off the great circle. -/
theorem claim3_counterexample :
    1 ≤ (stopsOf (find_optimal_fuel_stops 4000 10 [] ((45:ℝ), 0) (45, 90))).length
    ∧ legsSum (stopsOf (find_optimal_fuel_stops 4000 10 [] ((45:ℝ), 0) (45, 90)))
        + calculate_distance
            (lastStopPos ((45:ℝ), 0)
              (stopsOf (find_optimal_fuel_stops 4000 10 [] ((45:ℝ), 0) (45, 90))))
            (45, 90)
      > calculate_distance ((45:ℝ), 0) (45, 90) + 100 := by
  rw [c3_stops_eval]
  constructor
  · rw [build_stops_length]
    norm_num
  · rw [c3_legs_eval, c3_last_eval, dist_45_90, dist_45_lon 0 45 (by norm_num),
      dist_45_lon 45 90 (by norm_num)]
    have h0s : (0:ℝ) ≤ √((2 - √2) / 8) := Real.sqrt_nonneg _
    have hs1 : √((2 - √2) / 8) ≤ 1 :=
      (Real.sqrt_le_left (by norm_num : (0:ℝ) ≤ 1)).mpr
        (by nlinarith [Real.sqrt_nonneg 2])
    have harc := le_arcsin_of_mem h0s hs1
    have hsq2 : √2 < 1.4143 := by
      rw [Real.sqrt_lt' (by norm_num)]
      norm_num
    have hlb : (0.2705 : ℝ) < √((2 - √2) / 8) := by
      rw [Real.lt_sqrt (by norm_num)]
      nlinarith
    linarith [Real.pi_lt_d2, harc, hlb]

end Claim3Counterexample

/-!
## Claim C1 — what the decoder returns
-/

/-- **C1 (amended)**: `decode_polyline` accumulates the zigzag-decoded
5-bit-chunk deltas exactly as the spec describes, but emits each point
as raw accumulated integers in `(longitude, latitude)` order with no
`1e-5` scaling: the spec's claimed output equals the source output with
the components of every point swapped and scaled by `1e-5`. -/
theorem claim1_decode_unscaled_lonlat (cs : List ℕ) :
    decodePolylineClaim cs =
      (decode_polyline cs).map
        (List.map fun p => ((p.2 : ℚ) / 100000, (p.1 : ℚ) / 100000)) :=
  decodeLoopClaim_eq_decodeLoop cs.length cs le_rfl 0 0

/-- Counterexample to C1 as stated: the canonical string `"_p~iF~ps|U"`
encodes the point (38.5, -120.2); the claim predicts the decoded
sequence `[(38.5, -120.2)]`, but the source returns the raw swapped
integers `[(-12020000, 3850000)]`. -/
theorem claim1_counterexample :
    decode_polyline exPolyline = some [(-12020000, 3850000)]
    ∧ decodePolylineClaim exPolyline = some [((77 : ℚ) / 2, -(601 : ℚ) / 5)]
    ∧ (decode_polyline exPolyline).map
        (List.map fun p : ℤ × ℤ => ((p.1 : ℚ), (p.2 : ℚ)))
      ≠ some [((77 : ℚ) / 2, -(601 : ℚ) / 5)] := by
  have hdec : decode_polyline exPolyline = some [(-12020000, 3850000)] := by
    simp [exPolyline, decode_polyline, decodeLoop, parseChunk, unzig]
  refine ⟨hdec, ?_, ?_⟩
  · show decodeLoopClaim exPolyline 0 0 = _
    rw [decodeLoopClaim_eq_decodeLoop exPolyline.length exPolyline le_rfl 0 0]
    rw [show decodeLoop exPolyline 0 0 = decode_polyline exPolyline from rfl, hdec]
    norm_num
  · rw [hdec]
    simp only [Option.map_some', List.map_cons, List.map_nil, Option.some.injEq,
      List.cons.injEq, Prod.mk.injEq]
    norm_num

/-!
## Claim C5 — the round trip
-/

/-- **C5 (amended)**: decoding an encoded sequence does not recover the
sequence within `1e-5`; it returns each point's coordinates scaled by
`1e5` and rounded to integers, in swapped `(longitude, latitude)` order.
Encoding the empty sequence yields the empty string and decoding the
empty string yields the empty sequence, as claimed. -/
theorem claim5_roundtrip_scaled_swapped :
    (∀ pts : List (ℚ × ℚ),
      decode_polyline (encode_polyline pts)
        = some (pts.map fun p => (round (p.2 * 100000), round (p.1 * 100000))))
    ∧ encode_polyline [] = []
    ∧ decode_polyline [] = some [] := by
  refine ⟨fun pts => decode_polyline_encode_polyline pts, rfl, ?_⟩
  rw [decode_polyline, decodeLoop]

/-- Counterexample to C5 as stated: decoding the encoding of
`[(38.5, -120.2)]` yields `[(-12020000, 3850000)]`, which is not within
`1e-5` of the original point in either component. -/
theorem claim5_counterexample :
    decode_polyline (encode_polyline [((77 : ℚ) / 2, -(601 : ℚ) / 5)])
      = some [(-12020000, 3850000)]
    ∧ ¬(|((-12020000 : ℤ) : ℚ) - 77 / 2| ≤ 1 / 100000
        ∧ |((3850000 : ℤ) : ℚ) - -(601 / 5)| ≤ 1 / 100000) := by
  constructor
  · rw [decode_polyline_encode_polyline]
    have h1 : round ((77 : ℚ) / 2 * 100000) = 3850000 := by
      rw [round_eq, show (77 : ℚ) / 2 * 100000 + 1 / 2 = 3850000 + 1 / 2 by norm_num,
        Int.floor_eq_iff]
      constructor <;> norm_num
    have h2 : round (-(601 : ℚ) / 5 * 100000) = -12020000 := by
      rw [round_eq,
        show -(601 : ℚ) / 5 * 100000 + 1 / 2 = -12020000 + 1 / 2 by norm_num,
        Int.floor_eq_iff]
      constructor <;> norm_num
    simp [h1, h2]
  · rintro ⟨h1, -⟩
    rw [show ((-12020000 : ℤ) : ℚ) - 77 / 2 = -(24040077 / 2) by norm_num,
      abs_neg, abs_of_pos (by norm_num)] at h1
    norm_num at h1

/-!
## Claim C6 — literal coordinate pairs
-/

/-- **C6 (amended)**: when the location text contains a comma, splits
into exactly two parts, and both stripped parts parse as floats, the
resolver returns the parsed pair directly — with no provider request and
no range validation whatsoever (out-of-range pairs are returned, not
rejected). -/
theorem claim6_literal_pair_no_validation
    (s a b : List Char) (la lo : ℚ)
    (hc : s.contains ',' = true)
    (hsplit : splitOnChar ',' s = [a, b])
    (hfa : pyFloat (strip a) = some la)
    (hfb : pyFloat (strip b) = some lo) :
    geocode_location s = .direct la lo := by
  simp only [geocode_location, hc, if_true, hsplit, hfa, hfb]

/-- Counterexample to C6 as stated: the pair "200,300" is outside the
valid latitude/longitude ranges, yet the resolver returns it directly
instead of failing. -/
theorem claim6_counterexample :
    geocode_location ("200,300".toList) = .direct 200 300
    ∧ ¬((200 : ℚ) ≤ 90) := by
  constructor
  · decide
  · norm_num

/-- Witness for C6: the in-range literal pair "40,-74" is returned
directly. -/
theorem claim6_witness :
    geocode_location ("40,-74".toList) = .direct 40 (-74) :=
  claim6_literal_pair_no_validation ("40,-74".toList)
    ("40".toList) ("-74".toList) 40 (-74)
    (by decide) (by decide) (by decide) (by decide)

/-!
## Claim C10 — comma-free inputs never reach the provider
-/

/-- Splitting on an absent separator returns the whole string as the
single part. -/
theorem splitOnChar_of_not_contains (sep : Char) :
    ∀ s : List Char, s.contains sep = false → splitOnChar sep s = [s] := by
  intro s
  induction s with
  | nil => intro _; rfl
  | cons c rest ih =>
    intro h
    simp only [List.contains_cons, Bool.or_eq_false_iff] at h
    obtain ⟨hc, hrest⟩ := h
    have hns : ¬ sep = c := by simpa using hc
    simp only [splitOnChar]
    rw [if_neg (fun hcs => hns hcs.symm), ih hrest]

/-- **C10**: a location string with no comma resolves to `None` without
any provider request, and a provider request can only arise from an
input containing a comma. -/
theorem claim10_no_comma_no_provider :
    (∀ s : List Char, s.contains ',' = false → geocode_location s = .noResult)
    ∧ (∀ s c t : List Char,
        geocode_location s = .providerCall c t → s.contains ',' = true) := by
  have hpart1 : ∀ s : List Char, s.contains ',' = false →
      geocode_location s = .noResult := by
    intro s h
    simp only [geocode_location, h, if_false, Bool.false_eq_true,
      splitOnChar_of_not_contains ',' s h]
    norm_num
  refine ⟨hpart1, fun s c t h => ?_⟩
  by_cases hc : s.contains ',' = true
  · exact hc
  · rw [hpart1 s (by simpa using hc)] at h
    cases h

/-- Witness for C10: the bare city name "Chicago" resolves to `None`. -/
theorem claim10_witness :
    geocode_location ("Chicago".toList) = .noResult :=
  claim10_no_comma_no_provider.1 ("Chicago".toList) (by decide)

/-!
## Claim C8 — the batch-geocoding schedule
-/

/-- `geocode_address` produces exactly one event: a cache hit or a
request for the station's key. -/
theorem geocode_address_events (provider cache : GeoKey → Option (ℚ × ℚ))
    (k : GeoKey) :
    (geocode_address provider cache k).2.2 = [.cacheHit k]
    ∨ (geocode_address provider cache k).2.2 = [.request k] := by
  rcases hc : cache k with _ | c
  · rcases hp : provider k with _ | c <;> simp [geocode_address, hc, hp]
  · simp [geocode_address, hc]

/-- In every trace of the batch loop, no two requests are adjacent: a
sleep (or a cache-hit event followed by a sleep) separates consecutive
requests. -/
theorem geocode_loop_chain (provider : GeoKey → Option (ℚ × ℚ)) :
    ∀ (sts : List GeoStation) (cache : GeoKey → Option (ℚ × ℚ)),
      List.Chain' (fun a b => ¬(isRequest a = true ∧ isRequest b = true))
        (geocode_loop provider cache sts) := by
  intro sts
  induction sts with
  | nil => intro cache; exact List.chain'_nil
  | cons s rest ih =>
    intro cache
    match rest with
    | [] =>
      rcases geocode_address_events provider cache s.key with h | h <;>
        · show List.Chain' _ (geocode_address provider cache s.key).2.2
          rw [h]
          exact List.chain'_singleton _
    | s2 :: rest2 =>
      show List.Chain' _ ((geocode_address provider cache s.key).2.2 ++ [.sleep]
        ++ geocode_loop provider (geocode_address provider cache s.key).2.1
            (s2 :: rest2))
      have ihT := ih (geocode_address provider cache s.key).2.1
      rcases geocode_address_events provider cache s.key with h | h <;>
        · rw [h]
          rcases hT : geocode_loop provider
              (geocode_address provider cache s.key).2.1 (s2 :: rest2) with _ | ⟨t, T⟩
          · simp [List.chain'_cons, isRequest]
          · rw [hT] at ihT
            simp only [List.cons_append, List.nil_append, List.chain'_cons]
            refine ⟨by simp [isRequest], by simp [isRequest], ihT⟩

/-- The requests of a batch run are issued for a subsequence of the
not-yet-geocoded stations' keys, in submission order. -/
theorem geocode_loop_keys (provider : GeoKey → Option (ℚ × ℚ)) :
    ∀ (sts : List GeoStation) (cache : GeoKey → Option (ℚ × ℚ)),
      (requestKeys (geocode_loop provider cache sts)).Sublist
        (sts.map GeoStation.key) := by
  intro sts
  induction sts with
  | nil => intro cache; exact List.nil_sublist _
  | cons s rest ih =>
    intro cache
    match rest with
    | [] =>
      show (requestKeys (geocode_address provider cache s.key).2.2).Sublist _
      rcases geocode_address_events provider cache s.key with h | h
      · rw [h]
        rw [show requestKeys [GeoEvent.cacheHit s.key] = [] from rfl]
        exact List.nil_sublist _
      · rw [h]
        rw [show requestKeys [GeoEvent.request s.key] = [s.key] from rfl]
        exact List.Sublist.refl _
    | s2 :: rest2 =>
      show (requestKeys ((geocode_address provider cache s.key).2.2 ++ [.sleep]
        ++ geocode_loop provider (geocode_address provider cache s.key).2.1
            (s2 :: rest2))).Sublist _
      have ihT := ih (geocode_address provider cache s.key).2.1
      simp only [List.map_cons]
      rcases geocode_address_events provider cache s.key with h | h
      · rw [h]
        rw [show requestKeys ([GeoEvent.cacheHit s.key] ++ [GeoEvent.sleep]
            ++ geocode_loop provider (geocode_address provider cache s.key).2.1
                (s2 :: rest2))
          = requestKeys (geocode_loop provider
              (geocode_address provider cache s.key).2.1 (s2 :: rest2)) from by
            simp [requestKeys]]
        exact ihT.cons _
      · rw [h]
        rw [show requestKeys ([GeoEvent.request s.key] ++ [GeoEvent.sleep]
            ++ geocode_loop provider (geocode_address provider cache s.key).2.1
                (s2 :: rest2))
          = s.key :: requestKeys (geocode_loop provider
              (geocode_address provider cache s.key).2.1 (s2 :: rest2)) from by
            simp [requestKeys]]
        exact ihT.cons₂ _

/-- The batch loop's trace is exactly one event per pending station — a
cache hit or a request for that station's key, in submission order —
interspersed with single sleeps, so a sleep follows every processed
station except the last, whether or not its lookup hit the cache. -/
theorem geocode_loop_intersperse (provider : GeoKey → Option (ℚ × ℚ)) :
    ∀ (sts : List GeoStation) (cache : GeoKey → Option (ℚ × ℚ)),
      ∃ es : List GeoEvent,
        geocode_loop provider cache sts = List.intersperse GeoEvent.sleep es
        ∧ List.Forall₂
            (fun e s => e = GeoEvent.cacheHit s.key ∨ e = GeoEvent.request s.key)
            es sts := by
  intro sts
  induction sts with
  | nil => intro cache; exact ⟨[], rfl, List.Forall₂.nil⟩
  | cons s rest ih =>
    intro cache
    match rest with
    | [] =>
      rcases geocode_address_events provider cache s.key with h | h
      · refine ⟨[.cacheHit s.key], ?_, List.Forall₂.cons (Or.inl rfl) List.Forall₂.nil⟩
        show (geocode_address provider cache s.key).2.2 = _
        rw [h]
        rfl
      · refine ⟨[.request s.key], ?_, List.Forall₂.cons (Or.inr rfl) List.Forall₂.nil⟩
        show (geocode_address provider cache s.key).2.2 = _
        rw [h]
        rfl
    | s2 :: rest2 =>
      obtain ⟨es', hT, hf⟩ := ih (geocode_address provider cache s.key).2.1
      obtain ⟨e2, es'', rfl⟩ : ∃ e2 es'', es' = e2 :: es'' := by
        cases hf with
        | cons _ _ => exact ⟨_, _, rfl⟩
      rcases geocode_address_events provider cache s.key with h | h
      · refine ⟨.cacheHit s.key :: e2 :: es'', ?_,
          List.Forall₂.cons (Or.inl rfl) hf⟩
        show (geocode_address provider cache s.key).2.2 ++ [.sleep]
          ++ geocode_loop provider (geocode_address provider cache s.key).2.1
              (s2 :: rest2) = _
        rw [h, hT]
        rfl
      · refine ⟨.request s.key :: e2 :: es'', ?_,
          List.Forall₂.cons (Or.inr rfl) hf⟩
        show (geocode_address provider cache s.key).2.2 ++ [.sleep]
          ++ geocode_loop provider (geocode_address provider cache s.key).2.1
              (s2 :: rest2) = _
        rw [h, hT]
        rfl

/-- **C8 (amended)**: within one batch run the trace is exactly one
event per pending (not yet `geocoded`-flagged) station — a cache hit or
a request for that station's key, in submission order — with a single
1.1-second sleep interspersed between every pair of consecutive
stations' events.  Hence the sleep follows every processed station
except the last, regardless of result-cache hits — a cached item does
*not* bypass the delay — and at least one sleep separates consecutive
requests (no two requests are ever adjacent); requests are issued in
submission order.  Only stations already flagged `geocoded` (filtered
out before the loop) incur no delay. -/
theorem claim8_batch_schedule :
    ∀ (provider cache : GeoKey → Option (ℚ × ℚ)) (stations : List GeoStation),
      (∃ es : List GeoEvent,
        geocode_fuel_stations provider cache stations
          = List.intersperse GeoEvent.sleep es
        ∧ List.Forall₂
            (fun e s => e = GeoEvent.cacheHit s.key ∨ e = GeoEvent.request s.key)
            es (stations.filter (fun s => !s.geocoded)))
      ∧ List.Chain' (fun a b => ¬(isRequest a = true ∧ isRequest b = true))
          (geocode_fuel_stations provider cache stations)
      ∧ (requestKeys (geocode_fuel_stations provider cache stations)).Sublist
          ((stations.filter (fun s => !s.geocoded)).map GeoStation.key) :=
  fun provider cache stations =>
    ⟨geocode_loop_intersperse provider (stations.filter (fun s => !s.geocoded)) cache,
     geocode_loop_chain provider (stations.filter (fun s => !s.geocoded)) cache,
     geocode_loop_keys provider (stations.filter (fun s => !s.geocoded)) cache⟩

/-- Counterexample to C8 as stated: with the first pending station's key
cached and the second uncached, the trace still contains the 1.1-second
sleep between the cache hit and the request — the cached hit does not
bypass the delay. -/
theorem claim8_counterexample :
    geocode_fuel_stations exProvider exCache exStations
      = [.cacheHit exKey1, .sleep, .request exKey2]
    ∧ geocode_fuel_stations exProvider exCache exStations
      ≠ [.cacheHit exKey1, .request exKey2] := by
  constructor <;> decide

end RouteApi
